import Mathlib

set_option maxHeartbeats 1000000

/-!
Shallow embedding of the bvisor container-kernel (src/main.go) and proofs of
its specified properties.  Go methods that mutate their receiver are modelled
as functions returning the post-state; `fmt` output is modelled as a list of
`Obs` observation values.
-/

/-- Process lifecycle states (Go `ProcessState`: `Running`, `Stopped`, `Completed`). -/
inductive ProcessState where
  | Running
  | Stopped
  | Completed
deriving DecidableEq

/-- Go struct `Process`.  The `Action func()` field is an opaque unit of work
executed on a dispatched task; its execution is modelled by `Ev.complete`
events rather than stored in the record. -/
structure Process where
  name : String
  priority : Int
  state : ProcessState
deriving DecidableEq

/-- Go struct `Container`.  `CPULoad float64` is modelled as a rational: none of
the verified operations perform arithmetic on it (creation writes 0, the monitor
only reads it).  The mutex is omitted: the embedding is sequential, and the
concurrency of dispatched actions is modelled explicitly by `CState`. -/
structure Container where
  id : String
  name : String
  memoryMB : Int
  cpuLoad : Rat
  processes : List Process
deriving DecidableEq

/-- Go `Container.AddProcess`: sets `p.State = Running` and appends `p` to
`c.Processes`. -/
def Container.AddProcess (c : Container) (p : Process) : Container :=
  { c with processes := c.processes ++ [{ p with state := ProcessState.Running }] }

/-- Loop body of Go `Container.StopProcesses`: a Running process becomes
Stopped, any other process is left alone. -/
def stopOne (p : Process) : Process :=
  if p.state = ProcessState.Running then { p with state := ProcessState.Stopped } else p

/-- Go `Container.StopProcesses`: flips every Running process to Stopped. -/
def Container.StopProcesses (c : Container) : Container :=
  { c with processes := c.processes.map stopOne }

/-- Indices of the processes currently in Running state; these are exactly the
processes whose actions Go `Container.StartProcesses` dispatches. -/
def runningIdx (c : Container) : List Nat :=
  (List.range c.processes.length).filter (fun i =>
    match c.processes[i]? with
    | some p => decide (p.state = ProcessState.Running)
    | none => false)

/-- Go `Container.StartProcesses`: dispatches the action of every Running
process on an independent task and returns immediately; the container itself is
unchanged at return time.  The returned index list records the dispatched
tasks. -/
def Container.StartProcesses (c : Container) : Container × List Nat :=
  (c, runningIdx c)

/-- Body of the goroutine dispatched by `StartProcesses`
(`proc.Action(); proc.State = Completed`): on the action's completion the
process state is set to Completed, unconditionally. -/
def completeAt (c : Container) (i : Nat) : Container :=
  match c.processes[i]? with
  | some p => { c with processes := c.processes.set i { p with state := ProcessState.Completed } }
  | none => c

/-- Observable output lines (Go `fmt.Printf` / `fmt.Println` in the kernel).
Constructors carry the formatted data rather than rendered text. -/
inductive Obs where
  | created (name : String)
  | header
  | row (name : String) (memoryMB : Int) (cpuLoad : Rat) (running : Nat)
  | msgSuccess (fromName toName text : String)
  | msgFailure
deriving DecidableEq

/-- Recognizes a message-success observation. -/
def isMsgSuccess : Obs → Bool
  | Obs.msgSuccess _ _ _ => true
  | _ => false

/-- Recognizes a message-failure observation. -/
def isMsgFailure : Obs → Bool
  | Obs.msgFailure => true
  | _ => false

/-- Registry read (Go map read `k.Containers[id]`). -/
def mapFind : List (String × Container) → String → Option Container
  | [], _ => none
  | (key, c) :: rest, id => if key = id then some c else mapFind rest id

/-- Registry write (Go map write `k.Containers[id] = c`): replaces the binding
when the key is present, otherwise adds one. -/
def mapInsert : List (String × Container) → String → Container → List (String × Container)
  | [], id, c => [(id, c)]
  | (key, old) :: rest, id, c =>
      if key = id then (id, c) :: rest else (key, old) :: mapInsert rest id c

/-- Go struct `Kernel`: the registry, `map[string]*Container`, modelled as an
association list with at most one binding per key. -/
structure Kernel where
  containers : List (String × Container)
deriving DecidableEq

/-- Go `Kernel.CreateContainer`: builds a container with `CPULoad: 0` and an
empty process list, stores it under `id`, emits the creation line, and returns
it. -/
def Kernel.CreateContainer (k : Kernel) (id name : String) (memory : Int) :
    Kernel × Container × List Obs :=
  let c : Container :=
    { id := id, name := name, memoryMB := memory, cpuLoad := 0, processes := [] }
  ({ containers := mapInsert k.containers id c }, c, [Obs.created name])

/-- Go `Kernel.SendMessage`: looks up both endpoints; with both present emits
the transfer line, otherwise emits the error line.  The registry is never
written. -/
def Kernel.SendMessage (k : Kernel) (fromID toID msg : String) : Kernel × List Obs :=
  match mapFind k.containers fromID, mapFind k.containers toID with
  | some fc, some tc => (k, [Obs.msgSuccess fc.name tc.name msg])
  | _, _ => (k, [Obs.msgFailure])

/-- The running-process counter loop inside Go `Kernel.Monitor`
(`active++` for every process with `State == Running`). -/
def countActive (c : Container) : Nat :=
  c.processes.foldl (fun n p => if p.state = ProcessState.Running then n + 1 else n) 0

/-- One monitoring cycle's output: the header line followed by one row per
registered container. -/
def snapshotObs (k : Kernel) : List Obs :=
  Obs.header :: k.containers.map (fun e =>
    Obs.row e.2.name e.2.memoryMB e.2.cpuLoad (countActive e.2))

/-- The `for i := 0; i < cycles; i++` loop of Go `Kernel.Monitor`, indexed by
the number of remaining iterations. -/
def monitorLoop (k : Kernel) : Nat → List Obs
  | 0 => []
  | n + 1 => snapshotObs k ++ monitorLoop k n

/-- Go `Kernel.Monitor(interval, cycles)`: emits one snapshot per loop
iteration; `interval` only times the sleep between iterations and emits
nothing.  A zero or negative `cycles` runs zero iterations, which `Int.toNat`
captures.  Monitoring never writes the registry or any container. -/
def Kernel.Monitor (k : Kernel) (interval cycles : Int) : Kernel × List Obs :=
  (k, monitorLoop k cycles.toNat)

/-- A container together with its in-flight dispatched actions: `pending` holds
the indices of processes whose dispatched action has not yet completed. -/
structure CState where
  container : Container
  pending : List Nat
deriving DecidableEq

/-- Events that can interleave after dispatch: an external `StopProcesses`
call, or the natural completion of the in-flight action at index `i`. -/
inductive Ev where
  | stop
  | complete (i : Nat)
deriving DecidableEq

/-- Effect of one event on a container with in-flight actions.  A `complete i`
event for an index that is not pending is a no-op (each dispatched task
completes at most once). -/
def CState.step (s : CState) : Ev → CState
  | Ev.stop => { s with container := s.container.StopProcesses }
  | Ev.complete i =>
      if i ∈ s.pending then
        { container := completeAt s.container i, pending := s.pending.erase i }
      else s

/-- Runs a sequence of events. -/
def CState.run (s : CState) : List Ev → CState
  | [] => s
  | e :: es => (s.step e).run es

/-- State immediately after calling `StartProcesses` on a quiescent container:
the container is unchanged and every Running process's action is in flight. -/
def CState.start (c : Container) : CState :=
  { container := (c.StartProcesses).1, pending := (c.StartProcesses).2 }

/-- Fixture: a container used to exercise the amended transition theorem. -/
def wC1 : Container :=
  { id := "c1", name := "WebServer", memoryMB := 512, cpuLoad := 0, processes := [] }

/-- Fixture: a container holding one Stopped process. -/
def wC1b : Container :=
  { id := "c1", name := "WebServer", memoryMB := 512, cpuLoad := 0,
    processes := [{ name := "q", priority := 0, state := ProcessState.Stopped }] }

/-- Fixture: a registry holding the two demo containers of `main`. -/
def wC2K : Kernel :=
  { containers :=
      [("c1", { id := "c1", name := "WebServer", memoryMB := 512, cpuLoad := 0, processes := [] }),
       ("c2", { id := "c2", name := "Database", memoryMB := 1024, cpuLoad := 0, processes := [] })] }

/-- Fixture: a container with one Running and one Completed process. -/
def wC3 : Container :=
  { id := "c1", name := "WebServer", memoryMB := 512, cpuLoad := 0,
    processes := [{ name := "HTTP Server", priority := 1, state := ProcessState.Running },
                  { name := "Backup", priority := 2, state := ProcessState.Completed }] }

/-- Fixture: a container with one Running and one Stopped process. -/
def wC5C : Container :=
  { id := "c1", name := "WebServer", memoryMB := 512, cpuLoad := 0,
    processes := [{ name := "HTTP Server", priority := 1, state := ProcessState.Running },
                  { name := "Worker", priority := 2, state := ProcessState.Stopped }] }

/-- Fixture: a one-container registry for the monitor theorem. -/
def wC5K : Kernel := { containers := [("c1", wC5C)] }

/-- Fixture: the container initially registered under "c1". -/
def wC6old : Container :=
  { id := "c1", name := "Old", memoryMB := 1, cpuLoad := 0, processes := [] }

/-- Fixture: the container registered under "c2", untouched by the overwrite. -/
def wC6other : Container :=
  { id := "c2", name := "Other", memoryMB := 2, cpuLoad := 0, processes := [] }

/-- Fixture: a registry in which "c1" is already bound. -/
def wC6K : Kernel := { containers := [("c1", wC6old), ("c2", wC6other)] }

/-- Fixture: a registry in which "c9" is not bound. -/
def wC7K : Kernel := { containers := [("c2", wC6other)] }

/-- Fixture: a container with a single Running process, for the liveness run. -/
def wC8 : Container :=
  { id := "c1", name := "WebServer", memoryMB := 512, cpuLoad := 0,
    processes := [{ name := "HTTP Server", priority := 1, state := ProcessState.Running }] }

/-- Fixture: a registry for the zero-cycle monitor theorem. -/
def wC10K : Kernel := { containers := [("c1", wC6other)] }

/-- The result of dispatching events from a freshly started container, with the
invariant that every initially-Running process is either still pending and
untouched, or already marked Completed. -/
def InvAfter (c : Container) (s : CState) : Prop :=
  ∀ i p, c.processes[i]? = some p → p.state = ProcessState.Running →
    (i ∈ s.pending ∧ s.container.processes[i]? = some p) ∨
    s.container.processes[i]? = some { p with state := ProcessState.Completed }

lemma stopProcesses_getElem (c : Container) (i : Nat) :
    (c.StopProcesses).processes[i]? = (c.processes[i]?).map stopOne := by
  simp [Container.StopProcesses, List.getElem?_map]

lemma stopOne_stopOne (p : Process) : stopOne (stopOne p) = stopOne p := by
  by_cases h : p.state = ProcessState.Running
  · simp [stopOne, h]
  · simp [stopOne, h]

lemma mapFind_mapInsert_self (m : List (String × Container)) (id : String) (c : Container) :
    mapFind (mapInsert m id c) id = some c := by
  induction m with
  | nil => simp [mapInsert, mapFind]
  | cons e rest ih =>
      rcases e with ⟨key, old⟩
      by_cases h : key = id
      · simp [mapInsert, h, mapFind]
      · simp [mapInsert, h, mapFind, ih]

lemma mapFind_mapInsert_ne (m : List (String × Container)) (id id2 : String) (c : Container)
    (h : id2 ≠ id) : mapFind (mapInsert m id c) id2 = mapFind m id2 := by
  induction m with
  | nil => simp [mapInsert, mapFind, Ne.symm h]
  | cons e rest ih =>
      rcases e with ⟨key, old⟩
      by_cases hk : key = id
      · subst hk
        simp [mapInsert, mapFind, Ne.symm h]
      · simp [mapInsert, hk, mapFind, ih]

lemma length_mapInsert_of_find_some (m : List (String × Container)) (id : String)
    (c old : Container) : mapFind m id = some old → (mapInsert m id c).length = m.length := by
  induction m with
  | nil => intro h; simp [mapFind] at h
  | cons e rest ih =>
      intro h
      rcases e with ⟨key, v⟩
      by_cases hk : key = id
      · simp [mapInsert, hk]
      · simp [mapFind, hk] at h
        simp [mapInsert, hk, ih h]

lemma countActive_eq (c : Container) :
    countActive c =
      (c.processes.filter (fun p => decide (p.state = ProcessState.Running))).length := by
  have aux : ∀ (l : List Process) (n : Nat),
      l.foldl (fun m p => if p.state = ProcessState.Running then m + 1 else m) n =
        n + (l.filter (fun p => decide (p.state = ProcessState.Running))).length := by
    intro l
    induction l with
    | nil => intro n; simp
    | cons p t ih =>
        intro n
        by_cases hq : p.state = ProcessState.Running <;>
          simp [List.foldl_cons, List.filter_cons, hq, ih] <;> omega
  simpa [countActive] using aux c.processes 0

lemma monitorLoop_eq (k : Kernel) (n : Nat) :
    monitorLoop k n = (List.replicate n (snapshotObs k)).flatten := by
  induction n with
  | zero => simp [monitorLoop]
  | succ n ih => simp [monitorLoop, List.replicate_succ, ih]

lemma completeAt_getElem (c : Container) (i j : Nat) :
    (completeAt c i).processes[j]? =
      if i = j then (c.processes[j]?).map (fun p => { p with state := ProcessState.Completed })
      else c.processes[j]? := by
  unfold completeAt
  cases hci : c.processes[i]? with
  | none =>
      by_cases hij : i = j
      · subst hij; simp [hci]
      · simp [hij]
  | some p =>
      by_cases hij : i = j
      · subst hij
        have hlen := (List.getElem?_eq_some.mp hci).1
        simp [hci, List.getElem?_set_self hlen]
      · simp [hij, List.getElem?_set_ne hij]

lemma invAfter_start (c : Container) : InvAfter c (CState.start c) := by
  intro i p hp hs
  left
  refine ⟨?_, hp⟩
  show i ∈ runningIdx c
  unfold runningIdx
  rw [List.mem_filter, List.mem_range]
  have hlen := (List.getElem?_eq_some.mp hp).1
  exact ⟨hlen, by simp [hp, hs]⟩

lemma invAfter_step (c : Container) (s : CState) (e : Ev) (he : e ≠ Ev.stop)
    (hinv : InvAfter c s) : InvAfter c (s.step e) := by
  cases e with
  | stop => exact absurd rfl he
  | complete j =>
      intro i p hp hs
      by_cases hj : j ∈ s.pending
      · simp only [CState.step, if_pos hj]
        rcases hinv i p hp hs with ⟨hip, hci⟩ | hcomp
        · by_cases hij : i = j
          · subst hij
            right
            rw [completeAt_getElem, if_pos rfl, hci]
            rfl
          · left
            exact ⟨(List.mem_erase_of_ne hij).2 hip,
              by rw [completeAt_getElem, if_neg (fun hji => hij hji.symm)]; exact hci⟩
        · right
          by_cases hij : i = j
          · subst hij
            rw [completeAt_getElem, if_pos rfl, hcomp]
            rfl
          · rw [completeAt_getElem, if_neg (fun hji => hij hji.symm)]
            exact hcomp
      · simpa [CState.step, if_neg hj] using hinv i p hp hs

lemma invAfter_run (c : Container) (evs : List Ev) :
    ∀ s : CState, Ev.stop ∉ evs → InvAfter c s → InvAfter c (s.run evs) := by
  induction evs with
  | nil => intro s _ hinv; exact hinv
  | cons e es ih =>
      intro s hstop hinv
      have he : e ≠ Ev.stop := by
        intro h
        exact hstop (by simp [h])
      have hs2 : Ev.stop ∉ es := fun h => hstop (List.mem_cons_of_mem _ h)
      exact ih (s.step e) hs2 (invAfter_step c s e he hinv)

/-- C3: after `StopProcesses` returns, every process that was Running is
Stopped, and every process that was Completed or Stopped (anything not Running)
is unchanged; the process list keeps its length.  In particular a Completed
process is never transitioned. -/
theorem stopProcesses_spec (c : Container) :
    (c.StopProcesses).processes.length = c.processes.length ∧
    ∀ (i : Nat) (p : Process), c.processes[i]? = some p →
      (p.state = ProcessState.Running →
        (c.StopProcesses).processes[i]? = some { p with state := ProcessState.Stopped }) ∧
      (p.state ≠ ProcessState.Running → (c.StopProcesses).processes[i]? = some p) := by
  refine ⟨by simp [Container.StopProcesses], ?_⟩
  intro i p h
  constructor
  · intro hs
    rw [stopProcesses_getElem, h]
    simp [stopOne, hs]
  · intro hs
    rw [stopProcesses_getElem, h]
    simp [stopOne, hs]

/-- C3 witness: on a concrete container the Running process at index 0 is
Stopped after the call. -/
theorem stopProcesses_spec_witness :
    wC3.processes[0]? = some { name := "HTTP Server", priority := 1, state := ProcessState.Running } ∧
    (wC3.StopProcesses).processes[0]? =
      some { name := "HTTP Server", priority := 1, state := ProcessState.Stopped } :=
  ⟨rfl,
    ((stopProcesses_spec wC3).2 0
      { name := "HTTP Server", priority := 1, state := ProcessState.Running } rfl).1 rfl⟩

/-- C9: `StopProcesses` is idempotent — a second call leaves the whole
container (process list included) exactly as the first call left it. -/
theorem stopProcesses_idem (c : Container) :
    (c.StopProcesses).StopProcesses = c.StopProcesses := by
  simp only [Container.StopProcesses, List.map_map]
  simp [Function.comp, stopOne_stopOne]

/-- C4: `AddProcess` appends the process at the end of the list in state
Running (whatever its prior state), keeps its name and priority, leaves every
previously held process in place and in order, and changes no other container
field. -/
theorem addProcess_spec (c : Container) (p : Process) :
    (c.AddProcess p).processes.take c.processes.length = c.processes ∧
    (c.AddProcess p).processes.drop c.processes.length =
      [{ name := p.name, priority := p.priority, state := ProcessState.Running }] ∧
    (c.AddProcess p).id = c.id ∧ (c.AddProcess p).name = c.name ∧
    (c.AddProcess p).memoryMB = c.memoryMB ∧ (c.AddProcess p).cpuLoad = c.cpuLoad := by
  refine ⟨?_, ?_, rfl, rfl, rfl, rfl⟩
  · exact List.take_left _ _
  · exact List.drop_left _ _

/-- C10: `Monitor` with a zero or negative cycle count performs no iteration:
it emits nothing and leaves the kernel (hence every container) unchanged. -/
theorem monitor_nonpos (k : Kernel) (interval cycles : Int) (h : cycles ≤ 0) :
    k.Monitor interval cycles = (k, []) := by
  unfold Kernel.Monitor
  rw [Int.toNat_of_nonpos h]
  rfl

/-- C10 witness: a concrete registry monitored for -2 cycles emits nothing. -/
theorem monitor_nonpos_witness :
    ((-2 : Int) ≤ 0) ∧ wC10K.Monitor 1 (-2) = (wC10K, []) :=
  ⟨by decide, monitor_nonpos wC10K 1 (-2) (by decide)⟩

/-- C2: `SendMessage` never changes the kernel; with both endpoints registered
it emits exactly one success observation and no failure observation, and with
either endpoint absent it emits exactly one failure observation and no success
observation. -/
theorem sendMessage_spec (k : Kernel) (a b m : String) :
    (k.SendMessage a b m).1 = k ∧
    (((mapFind k.containers a).isSome = true ∧ (mapFind k.containers b).isSome = true) →
      ((k.SendMessage a b m).2.filter isMsgSuccess).length = 1 ∧
      ((k.SendMessage a b m).2.filter isMsgFailure).length = 0) ∧
    (¬((mapFind k.containers a).isSome = true ∧ (mapFind k.containers b).isSome = true) →
      ((k.SendMessage a b m).2.filter isMsgSuccess).length = 0 ∧
      ((k.SendMessage a b m).2.filter isMsgFailure).length = 1) := by
  unfold Kernel.SendMessage
  rcases hfa : mapFind k.containers a with _ | fc <;>
    rcases hfb : mapFind k.containers b with _ | tc <;>
      simp [hfa, hfb, isMsgSuccess, isMsgFailure]

/-- C2 witness: with both demo containers registered, sending a message emits
one success line and no failure line. -/
theorem sendMessage_spec_witness :
    ((mapFind wC2K.containers "c1").isSome = true ∧
      (mapFind wC2K.containers "c2").isSome = true) ∧
    ((wC2K.SendMessage "c1" "c2" "ping").2.filter isMsgSuccess).length = 1 ∧
    ((wC2K.SendMessage "c1" "c2" "ping").2.filter isMsgFailure).length = 0 :=
  ⟨⟨rfl, rfl⟩, (sendMessage_spec wC2K "c1" "c2" "ping").2.1 ⟨rfl, rfl⟩⟩

/-- C5: for a positive cycle count, `Monitor` leaves the kernel unchanged and
its output is exactly `cycles` snapshot blocks, each a header line followed by
one row per registered container whose running count is the number of that
container's processes in Running state. -/
theorem monitor_spec (k : Kernel) (interval cycles : Int) (h : 1 ≤ cycles) :
    (k.Monitor interval cycles).1 = k ∧
    (cycles.toNat : Int) = cycles ∧
    (k.Monitor interval cycles).2 =
      (List.replicate cycles.toNat (Obs.header :: k.containers.map (fun e =>
        Obs.row e.2.name e.2.memoryMB e.2.cpuLoad
          ((e.2.processes.filter
            (fun p => decide (p.state = ProcessState.Running))).length)))).flatten := by
  refine ⟨rfl, Int.toNat_of_nonneg (by omega), ?_⟩
  show monitorLoop k cycles.toNat = _
  rw [monitorLoop_eq]
  simp [snapshotObs, countActive_eq]

/-- C5 witness: two monitoring cycles over a one-container registry with one
Running and one Stopped process. -/
theorem monitor_spec_witness :
    (1 ≤ (2 : Int)) ∧
    (wC5K.Monitor 1 2).2 =
      (List.replicate (2 : Int).toNat (Obs.header :: wC5K.containers.map (fun e =>
        Obs.row e.2.name e.2.memoryMB e.2.cpuLoad
          ((e.2.processes.filter
            (fun p => decide (p.state = ProcessState.Running))).length)))).flatten :=
  ⟨by decide, (monitor_spec wC5K 1 2 (by decide)).2.2⟩

/-- C6: when `id` is already bound, `CreateContainer` silently overwrites that
binding with the new container (the registry does not grow), emits only the
normal creation observation, and leaves every other binding unchanged. -/
theorem createContainer_overwrite (k : Kernel) (id name : String) (memory : Int)
    (old : Container) (h : mapFind k.containers id = some old) :
    mapFind (k.CreateContainer id name memory).1.containers id =
      some (k.CreateContainer id name memory).2.1 ∧
    (k.CreateContainer id name memory).1.containers.length = k.containers.length ∧
    (∀ id2, id2 ≠ id →
      mapFind (k.CreateContainer id name memory).1.containers id2 =
        mapFind k.containers id2) ∧
    (k.CreateContainer id name memory).2.2 = [Obs.created name] := by
  refine ⟨mapFind_mapInsert_self .., length_mapInsert_of_find_some _ _ _ _ h,
    fun id2 h2 => mapFind_mapInsert_ne _ _ _ _ h2, rfl⟩

/-- C6 witness: recreating "c1" overwrites its binding and leaves "c2" alone. -/
theorem createContainer_overwrite_witness :
    mapFind wC6K.containers "c1" = some wC6old ∧
    ("c2" ≠ "c1") ∧
    mapFind (wC6K.CreateContainer "c1" "New" 7).1.containers "c2" =
      mapFind wC6K.containers "c2" :=
  ⟨rfl, by decide,
    (createContainer_overwrite wC6K "c1" "New" 7 wC6old rfl).2.2.1 "c2" (by decide)⟩

/-- C7: when `id` is fresh, `CreateContainer` returns a container carrying the
arguments with zero CPU load and no processes, binds it under `id`, emits
exactly the creation observation, and every previously registered container
stays retrievable unchanged. -/
theorem createContainer_fresh (k : Kernel) (id name : String) (memory : Int)
    (h : mapFind k.containers id = none) :
    (k.CreateContainer id name memory).2.1 =
      { id := id, name := name, memoryMB := memory, cpuLoad := 0, processes := [] } ∧
    mapFind (k.CreateContainer id name memory).1.containers id =
      some (k.CreateContainer id name memory).2.1 ∧
    (∀ id2 c2, mapFind k.containers id2 = some c2 →
      mapFind (k.CreateContainer id name memory).1.containers id2 = some c2) ∧
    (k.CreateContainer id name memory).2.2 = [Obs.created name] := by
  refine ⟨rfl, mapFind_mapInsert_self .., ?_, rfl⟩
  intro id2 c2 h2
  by_cases he : id2 = id
  · subst he
    rw [h] at h2
    cases h2
  · show mapFind (mapInsert k.containers id _) id2 = some c2
    rw [mapFind_mapInsert_ne _ _ _ _ he]
    exact h2

/-- C7 witness: creating a fresh "c9" binds it and keeps "c2" retrievable. -/
theorem createContainer_fresh_witness :
    mapFind wC7K.containers "c9" = none ∧
    mapFind wC7K.containers "c2" = some wC6other ∧
    mapFind (wC7K.CreateContainer "c9" "Cache" 64).1.containers "c2" = some wC6other :=
  ⟨rfl, rfl,
    (createContainer_fresh wC7K "c9" "Cache" 64 rfl).2.2.1 "c2" wC6other rfl⟩

/-- C8: `StartProcesses` returns immediately with the container unchanged (no
completion happens synchronously), and along any subsequent interleaving of
completion events in which every dispatched action terminates (the pending set
empties) and no external stop occurs, every process that was Running at call
time ends in state Completed. -/
theorem startProcesses_liveness (c : Container) (evs : List Ev)
    (hstop : Ev.stop ∉ evs)
    (hdone : ((CState.start c).run evs).pending = []) :
    (c.StartProcesses).1 = c ∧
    ∀ (i : Nat) (p : Process), c.processes[i]? = some p →
      p.state = ProcessState.Running →
      ((CState.start c).run evs).container.processes[i]? =
        some { p with state := ProcessState.Completed } := by
  refine ⟨rfl, ?_⟩
  intro i p hp hs
  have hinv := invAfter_run c evs (CState.start c) hstop (invAfter_start c)
  rcases hinv i p hp hs with ⟨hip, _⟩ | hcomp
  · rw [hdone] at hip
    cases hip
  · exact hcomp

/-- C8 witness: a container with one Running process, whose dispatched action
completes; the process ends Completed. -/
theorem startProcesses_liveness_witness :
    (Ev.stop ∉ [Ev.complete 0]) ∧
    ((CState.start wC8).run [Ev.complete 0]).pending = [] ∧
    ((CState.start wC8).run [Ev.complete 0]).container.processes[0]? =
      some { name := "HTTP Server", priority := 1, state := ProcessState.Completed } :=
  ⟨by decide, by rfl,
    (startProcesses_liveness wC8 [Ev.complete 0] (by decide) (by rfl)).2 0
      { name := "HTTP Server", priority := 1, state := ProcessState.Running } rfl rfl⟩

/-- C1 counterexample: a Process whose state is Completed is moved back to
Running by `AddProcess`, so Completed is not terminal under every operation as
the claim states. -/
theorem transitions_counterexample :
    ({ name := "p", priority := 0, state := ProcessState.Completed } : Process).state
        = ProcessState.Completed ∧
    (wC1.AddProcess
        { name := "p", priority := 0, state := ProcessState.Completed }).processes[0]?
      = some { name := "p", priority := 0, state := ProcessState.Running } :=
  ⟨rfl, rfl⟩

/-- C1 (amended): `StartProcesses` performs no transition at return time and
`StopProcesses` performs only Running to Stopped, leaving Completed and Stopped
processes untouched; but `AddProcess` sets the added process's state to Running
and an action's completion sets the process's state to Completed, each
regardless of the prior state, so Completed and Stopped are not terminal under
those two operations. -/
theorem transitions_amended (c : Container) (p : Process) (i : Nat) (q : Process)
    (h : c.processes[i]? = some q) :
    (c.StartProcesses).1 = c ∧
    ((q.state = ProcessState.Running →
        (c.StopProcesses).processes[i]? = some { q with state := ProcessState.Stopped }) ∧
      (q.state ≠ ProcessState.Running → (c.StopProcesses).processes[i]? = some q)) ∧
    (c.AddProcess p).processes[c.processes.length]? =
        some { p with state := ProcessState.Running } ∧
    (completeAt c i).processes[i]? = some { q with state := ProcessState.Completed } := by
  refine ⟨rfl, ⟨?_, ?_⟩, ?_, ?_⟩
  · intro hq
    rw [stopProcesses_getElem, h]
    simp [stopOne, hq]
  · intro hq
    rw [stopProcesses_getElem, h]
    simp [stopOne, hq]
  · simp [Container.AddProcess]
  · rw [completeAt_getElem, if_pos rfl, h]
    rfl

/-- C1 amended witness: a Stopped process is untouched by `StopProcesses` but
an action completion moves it to Completed. -/
theorem transitions_amended_witness :
    wC1b.processes[0]? = some { name := "q", priority := 0, state := ProcessState.Stopped } ∧
    (({ name := "q", priority := 0, state := ProcessState.Stopped } : Process).state
        ≠ ProcessState.Running) ∧
    (wC1b.StopProcesses).processes[0]? =
      some { name := "q", priority := 0, state := ProcessState.Stopped } ∧
    (completeAt wC1b 0).processes[0]? =
      some { name := "q", priority := 0, state := ProcessState.Completed } :=
  ⟨rfl, by decide,
    (transitions_amended wC1b { name := "p", priority := 0, state := ProcessState.Running } 0
      { name := "q", priority := 0, state := ProcessState.Stopped } rfl).2.1.2 (by decide),
    (transitions_amended wC1b { name := "p", priority := 0, state := ProcessState.Running } 0
      { name := "q", priority := 0, state := ProcessState.Stopped } rfl).2.2.2⟩
